import Mathlib

/-!
Shallow embedding of the remoc port allocator
(src/remoc/src/chmux/port_allocator.rs) and of the watch-channel remoting
glue (src/remoc/src/rch/watch/mod.rs), together with theorems settling the
specification claims about them.

Modelling conventions:
- Rust u32 port numbers are modelled as Nat; none of the verified claims
  depends on the 32-bit wrap of the random candidate.
- The mutex-guarded shared state PortAllocatorInner is passed explicitly.
- The random candidate loop in try_allocate (sample rand::random until the
  candidate is not contained in used) is modelled by a picker function
  pick : Finset Nat → Nat; the loop breaks exactly when the candidate is
  outside used, so the semantics of the loop is any picker satisfying
  pick s ∉ s. Theorems quantify over such pickers; the executable picker
  pickFresh realises one choice.
- Async suspension is modelled by explicit step functions: one iteration of
  the allocate loop, one iteration of the send_impl and recv_impl select
  loops. Suspension and resumption order is immaterial to the claims.
- A Rust panic is modelled by Option.none; fallible operations return
  Option or Except.
-/

/-- State behind the mutex of the port allocator: the set of used port
numbers, the soft limit, and the queue of registered one-shot waiters
(modelled by opaque waiter tokens in push order). -/
structure PortAllocatorInner where
  used : Finset Nat
  limit : Nat
  notify_tx : List Nat
  deriving DecidableEq

/-- Embedding of PortAllocatorInner.is_available: the source compares with
less-or-equal (used.len() <= limit), which is what we transcribe here. -/
def PortAllocatorInner.is_available (inner : PortAllocatorInner) : Bool :=
  decide (inner.used.card ≤ inner.limit)

/-- Embedding of PortAllocatorInner.try_allocate: when available, pick a
candidate not in used (the random retry loop, modelled by pick), insert it
and return it; otherwise return none. The Arc back-reference of the
returned PortNumber is implicit in the explicit state passing. -/
def PortAllocatorInner.try_allocate (pick : Finset Nat → Nat)
    (inner : PortAllocatorInner) : Option (Nat × PortAllocatorInner) :=
  if inner.is_available then
    let number := pick inner.used
    some (number, { inner with used := insert number inner.used })
  else
    none

/-- Result of one iteration of the PortAllocator.allocate loop: either a
port was granted, or a waiter was registered and the task suspends. -/
inductive AllocStep where
  | granted (number : Nat) (inner : PortAllocatorInner)
  | suspended (inner : PortAllocatorInner)
  deriving DecidableEq

/-- One iteration of PortAllocator.allocate: try to allocate under the
lock; on failure push a fresh one-shot waiter (token w) and suspend. -/
def PortAllocator.allocate_step (pick : Finset Nat → Nat) (w : Nat)
    (inner : PortAllocatorInner) : AllocStep :=
  match inner.try_allocate pick with
  | some (n, inner') => .granted n inner'
  | none => .suspended { inner with notify_tx := inner.notify_tx ++ [w] }

/-- Embedding of the Drop impl of PortNumber: remove the number from used,
take the whole waiter vector (leaving it empty) and signal every taken
waiter. Returns the new state and the list of signalled waiters. -/
def PortNumber.drop (number : Nat) (inner : PortAllocatorInner) :
    PortAllocatorInner × List Nat :=
  ({ inner with used := inner.used.erase number, notify_tx := [] },
   inner.notify_tx)

/-- Executable picker realising the random retry loop: a number strictly
above every used number, hence outside used. -/
def pickFresh (used : Finset Nat) : Nat :=
  used.sup id + 1

theorem pickFresh_not_mem (used : Finset Nat) : pickFresh used ∉ used := by
  intro h
  have hle : id (used.sup id + 1) ≤ used.sup id := Finset.le_sup h
  simp only [id] at hle
  omega

/-- Operations a client may perform on a shared allocator. -/
inductive AllocOp where
  | tryAlloc
  | alloc (w : Nat)
  | dropPort (n : Nat)
  deriving DecidableEq

/-- Allocator state together with the numbers of the live PortNumber
handles currently held by clients. -/
structure SysState where
  inner : PortAllocatorInner
  live : List Nat
  deriving DecidableEq

/-- One client operation: try_allocate keeps the handle on success, one
allocate-loop iteration keeps the handle when granted, and dropping a held
handle runs the Drop impl. -/
def SysState.step (pick : Finset Nat → Nat) (s : SysState) :
    AllocOp → SysState
  | .tryAlloc =>
    match s.inner.try_allocate pick with
    | some (n, inner') => ⟨inner', n :: s.live⟩
    | none => s
  | .alloc w =>
    match PortAllocator.allocate_step pick w s.inner with
    | .granted n inner' => ⟨inner', n :: s.live⟩
    | .suspended inner' => ⟨inner', s.live⟩
  | .dropPort n =>
    if n ∈ s.live then
      ⟨(PortNumber.drop n s.inner).1, s.live.erase n⟩
    else s

/-- Run a sequence of client operations. -/
def SysState.run (pick : Finset Nat → Nat) (s : SysState)
    (ops : List AllocOp) : SysState :=
  ops.foldl (SysState.step pick) s

/-- Freshly created allocator (PortAllocator.new) with no held handles. -/
def initState (limit : Nat) : SysState :=
  ⟨⟨∅, limit, []⟩, []⟩

/-- Correspondence invariant between the used set and the live handles. -/
def SysInv (s : SysState) : Prop :=
  s.live.Nodup ∧ ∀ n, n ∈ s.inner.used ↔ n ∈ s.live

theorem sysInv_init (limit : Nat) : SysInv (initState limit) := by
  constructor
  · exact List.nodup_nil
  · intro n
    simp [initState]

theorem try_allocate_fresh (pick : Finset Nat → Nat)
    (hpick : ∀ s : Finset Nat, pick s ∉ s) (inner : PortAllocatorInner)
    (n : Nat) (inner' : PortAllocatorInner)
    (h : inner.try_allocate pick = some (n, inner')) :
    n ∉ inner.used ∧ inner'.used = insert n inner.used := by
  unfold PortAllocatorInner.try_allocate at h
  by_cases hav : inner.is_available = true
  · simp [hav] at h
    obtain ⟨hn, hinner⟩ := h
    subst hn
    exact ⟨hpick inner.used, by rw [← hinner]⟩
  · simp [hav] at h

theorem sysInv_step (pick : Finset Nat → Nat)
    (hpick : ∀ s : Finset Nat, pick s ∉ s) (s : SysState) (op : AllocOp)
    (hinv : SysInv s) : SysInv (s.step pick op) := by
  obtain ⟨hnd, hmem⟩ := hinv
  cases op with
  | tryAlloc =>
    unfold SysState.step
    cases htry : s.inner.try_allocate pick with
    | none => exact ⟨hnd, hmem⟩
    | some p =>
      obtain ⟨n, inner'⟩ := p
      obtain ⟨hfresh, hused⟩ := try_allocate_fresh pick hpick _ _ _ htry
      refine ⟨?_, ?_⟩
      · exact List.nodup_cons.mpr ⟨fun hc => hfresh ((hmem n).mpr hc), hnd⟩
      · intro m
        simp only [hused, Finset.mem_insert, List.mem_cons]
        exact or_congr Iff.rfl (hmem m)
  | alloc w =>
    unfold SysState.step PortAllocator.allocate_step
    cases htry : s.inner.try_allocate pick with
    | none => exact ⟨hnd, hmem⟩
    | some p =>
      obtain ⟨n, inner'⟩ := p
      obtain ⟨hfresh, hused⟩ := try_allocate_fresh pick hpick _ _ _ htry
      refine ⟨?_, ?_⟩
      · exact List.nodup_cons.mpr ⟨fun hc => hfresh ((hmem n).mpr hc), hnd⟩
      · intro m
        simp only [hused, Finset.mem_insert, List.mem_cons]
        exact or_congr Iff.rfl (hmem m)
  | dropPort n =>
    unfold SysState.step
    by_cases hl : n ∈ s.live
    · simp only [hl, if_true]
      refine ⟨hnd.erase n, ?_⟩
      intro m
      simp only [PortNumber.drop, Finset.mem_erase, hnd.mem_erase_iff]
      exact and_congr Iff.rfl (hmem m)
    · simp only [hl, if_false]
      exact ⟨hnd, hmem⟩

theorem sysInv_run (pick : Finset Nat → Nat)
    (hpick : ∀ s : Finset Nat, pick s ∉ s) (s : SysState)
    (ops : List AllocOp) (hinv : SysInv s) : SysInv (s.run pick ops) := by
  induction ops generalizing s with
  | nil => exact hinv
  | cons op rest ih =>
    exact ih _ (sysInv_step pick hpick s op hinv)

/-- Embedding of the PortNumber handle for its comparison, hashing and
borrowing impls. The Arc back-reference to the allocator is modelled by an
opaque allocator identity that the impls must ignore. -/
structure PortNumber where
  number : Nat
  allocator : Nat
  deriving DecidableEq

/-- Embedding of the Deref impl: returns the underlying number. -/
def PortNumber.deref (p : PortNumber) : Nat :=
  p.number

/-- Embedding of the PartialEq impl: compares the dereferenced numbers. -/
def PortNumber.eq (a b : PortNumber) : Bool :=
  a.deref == b.deref

/-- Embedding of the Ord impl: compares the numbers. -/
def PortNumber.cmp (a b : PortNumber) : Ordering :=
  compare a.number b.number

/-- Embedding of the PartialOrd impl: Some of the total comparison. -/
def PortNumber.partial_cmp (a b : PortNumber) : Option Ordering :=
  some (a.cmp b)

/-- Embedding of the Hash impl: feeds the dereferenced number to the
hasher, modelled by an arbitrary hashing function on Nat. -/
def PortNumber.hash (h : Nat → Nat) (p : PortNumber) : Nat :=
  h p.deref

/-- Embedding of the Borrow impl for u32: returns the number. -/
def PortNumber.borrow (p : PortNumber) : Nat :=
  p.number

/-- Length of the queue storing errors that occurred during remote send
(watch/mod.rs, constant ERROR_QUEUE). -/
def ERROR_QUEUE : Nat := 16

/-- Modelled from the spec: the error variants of RemoteSendError that the
watch drivers construct. RemoteSendError itself lives outside the excerpt;
the drivers use only the Send variant (carrying the kind of the failed
send) and the marker variant Forward. -/
inductive RemoteSendError (K : Type) where
  | sendFailed (kind : K)
  | forward
  deriving DecidableEq

/-- Semantics of tokio mpsc try_send on the bounded error channel of
capacity ERROR_QUEUE: enqueue when there is room, silently drop the entry
when the queue is full. -/
def trySendErr {K : Type} (q : List (RemoteSendError K))
    (e : RemoteSendError K) : List (RemoteSendError K) :=
  if q.length < ERROR_QUEUE then q ++ [e] else q

/-- Outcome of remote_tx.send for one changed value, as observed by
send_impl: success, or an error carrying its kind and the result of
err.is_item_specific(). -/
inductive SendOutcome (K : Type) where
  | ok
  | err (kind : K) (item_specific : Bool)
  deriving DecidableEq

/-- One event of the biased select loop of send_impl. The backchannel arm
carries Ok(Some(bytes)) as some bytes and collapses Ok(None) and Err into
none; the changed arm carries Ok(()) together with the freshly borrowed
value and the outcome of sending it, and collapses Err into none. -/
inductive SendEvent (V K : Type) where
  | backchannel (msg : Option (List Nat))
  | changed (res : Option (V × SendOutcome K))
  deriving DecidableEq

/-- Observable state of the send_impl driver: the bounded error queue it
feeds through remote_send_err_tx, and whether the loop is still running. -/
structure SendState (K : Type) where
  errQueue : List (RemoteSendError K)
  running : Bool
  deriving DecidableEq

/-- One iteration of the send_impl event loop (watch/mod.rs). An inbound
backchannel message whose first byte is the error tag enqueues Forward via
try_send; an empty or failed backchannel read breaks. A changed value is
sent; on send failure the error kind is enqueued via try_send and the loop
breaks exactly when err.is_item_specific() holds (this transcribes the
source condition verbatim); a failed changed wait breaks. -/
def send_impl_step {V K : Type} (errTag : Nat) (ev : SendEvent V K)
    (s : SendState K) : SendState K :=
  if ¬ s.running then s else
  match ev with
  | .backchannel (some (b :: _)) =>
    if b = errTag then
      { s with errQueue := trySendErr s.errQueue .forward }
    else s
  | .backchannel (some []) => { s with running := false }
  | .backchannel none => { s with running := false }
  | .changed (some (_, .ok)) => s
  | .changed (some (_, .err kind item_specific)) =>
    let q := trySendErr s.errQueue (.sendFailed kind)
    if item_specific then { s with errQueue := q, running := false }
    else { s with errQueue := q }
  | .changed none => { s with running := false }

/-- Modelled from the spec: the error type of the base receiver used by
recv_impl (module rch/base, outside the excerpt). recv_impl only inspects
err.is_final(), so the model keeps a code plus that flag. -/
structure BaseRecvError where
  code : Nat
  is_final : Bool
  deriving DecidableEq

/-- Modelled from the spec: the watch receiver error variant constructed by
recv_impl (receiver.rs is outside the excerpt); only RemoteReceive is
built there. -/
inductive RecvError where
  | remoteReceive (e : BaseRecvError)
  deriving DecidableEq

/-- Result of remote_rx.recv as matched by recv_impl: a decoded value
(itself a Result, since the wire carries Result values), end of stream, or
a decode error. -/
inductive RecvRes (T : Type) where
  | ok (v : Except RecvError T)
  | eof
  | err (e : BaseRecvError)

/-- One event of the biased select loop of recv_impl: local closure
request, an entry dequeued from the local error queue, the pending-error
arm (enabled only while current_err is set), or received data. -/
inductive RecvEvent (T : Type) where
  | closed
  | errDequeued
  | pendingErr
  | data (res : RecvRes T)

/-- Observable state of the recv_impl driver: whether current_err is still
set, the values published to the local watch sender, the raw messages sent
upstream on raw_tx, and whether the loop is still running. -/
structure RecvState (T : Type) where
  currentErr : Bool
  published : List (Except RecvError T)
  sentUp : List (List Nat)
  running : Bool

/-- One iteration of the recv_impl event loop (watch/mod.rs). txOpen tells
whether the local watch sender still has receivers, i.e. whether tx.send
succeeds. An error-queue entry or a set current_err emits the single error
tag byte upstream; received data is republished to the local watch, a
decode error as Err(RemoteReceive err); the loop breaks on local closure,
end of stream, failed republish, or a final decode error. -/
def recv_impl_step {T : Type} (errTag : Nat) (txOpen : Bool)
    (ev : RecvEvent T) (s : RecvState T) : RecvState T :=
  if ¬ s.running then s else
  match ev with
  | .closed => { s with running := false }
  | .errDequeued => { s with sentUp := s.sentUp ++ [[errTag]] }
  | .pendingErr =>
    if s.currentErr then
      { s with sentUp := s.sentUp ++ [[errTag]], currentErr := false }
    else s
  | .data .eof => { s with running := false }
  | .data (.ok v) =>
    if txOpen then { s with published := s.published ++ [v] }
    else { s with running := false }
  | .data (.err e) =>
    if txOpen then
      { s with published := s.published ++ [.error (RecvError.remoteReceive e)],
               running := !e.is_final }
    else { s with running := false }

/-- Embedding of the watch Ref type: a borrow of the current channel value,
which is a Result of the value type and the receive error. -/
structure WatchRef (T : Type) where
  val : Except RecvError T

/-- Embedding of the Deref impl of Ref: unwrap of the underlying Result.
The Rust unwrap panics on Err; the panic is modelled by none. -/
def WatchRef.deref {T : Type} (r : WatchRef T) : Option T :=
  match r.val with
  | .ok v => some v
  | .error _ => none

/-- Resolves whether one allocate-loop iteration granted a port. -/
def AllocStep.isGranted : AllocStep → Bool
  | .granted _ _ => true
  | .suspended _ => false

/-- Claim C1: the claim states that the number of used port numbers never
exceeds the limit L and that a port is handed out only when the used count
is strictly below L. The code checks used.card with less-or-equal, so with
limit 1 two successive try_allocate calls both succeed and the used set
reaches cardinality 2; is_available is even true at a state already
holding limit-many ports. -/
theorem c1_limit_can_be_exceeded :
    PortAllocatorInner.is_available ⟨{5}, 1, []⟩ = true
    ∧ ((initState 1).run pickFresh [AllocOp.tryAlloc, AllocOp.tryAlloc]).inner.used.card = 2 := by
  constructor
  · rfl
  · decide

/-- Claim C2: the claim states that after a send failure the driver
continues when the failure is item-specific and exits when it is terminal.
The source breaks exactly when err.is_item_specific() holds, so at a
concrete failing event the driver keeps running after a terminal failure
and exits after an item-specific one — the reverse of the claim. The error
kind is enqueued in both cases. -/
theorem c2_send_impl_divergence :
    (send_impl_step (V := Unit) (K := Nat) 1
        (SendEvent.changed (some ((), SendOutcome.err 7 false))) ⟨[], true⟩).running = true
    ∧ (send_impl_step (V := Unit) (K := Nat) 1
        (SendEvent.changed (some ((), SendOutcome.err 7 true))) ⟨[], true⟩).running = false
    ∧ (send_impl_step (V := Unit) (K := Nat) 1
        (SendEvent.changed (some ((), SendOutcome.err 7 false))) ⟨[], true⟩).errQueue
        = [RemoteSendError.sendFailed 7]
    ∧ (send_impl_step (V := Unit) (K := Nat) 1
        (SendEvent.changed (some ((), SendOutcome.err 7 true))) ⟨[], true⟩).errQueue
        = [RemoteSendError.sendFailed 7] :=
  ⟨rfl, rfl, rfl, rfl⟩

/-- Claim C3: the claim states that with limit 1 and one live allocation,
try_allocate returns None and a second allocate suspends. In the code the
availability check uses less-or-equal, so after the first allocation (its
handle still live) try_allocate returns Some and the second allocate is
granted immediately instead of suspending. -/
theorem c3_second_allocate_not_blocked :
    ((initState 1).run pickFresh [AllocOp.tryAlloc]).live = [1]
    ∧ (((initState 1).run pickFresh [AllocOp.tryAlloc]).inner.try_allocate pickFresh).isSome = true
    ∧ (PortAllocator.allocate_step pickFresh 0
        ((initState 1).run pickFresh [AllocOp.tryAlloc]).inner).isGranted = true := by
  decide

/-- Claim C4: dropping a PortNumber removes its number from the used set,
signals exactly the waiters pending at that moment, and leaves the waiter
queue empty. -/
theorem c4_drop_releases_and_broadcasts (n : Nat) (inner : PortAllocatorInner) :
    (PortNumber.drop n inner).1.used = inner.used.erase n
    ∧ (PortNumber.drop n inner).2 = inner.notify_tx
    ∧ (PortNumber.drop n inner).1.notify_tx = [] :=
  ⟨rfl, rfl, rfl⟩

/-- Claim C5: with any picker satisfying the exit condition of the random
probing loop, every successful try_allocate returns a number outside the
current used set; in every state reachable by allocate, try_allocate and
drop operations the live handles carry pairwise distinct numbers and the
used set is exactly the set of live numbers; and an allocation performed in
a reachable state (for example by a waiter resumed after a drop) yields a
number different from every still-live handle. -/
theorem c5_allocations_distinct (pick : Finset Nat → Nat)
    (hpick : ∀ s : Finset Nat, pick s ∉ s) (limit : Nat) (ops : List AllocOp) :
    (∀ (inner : PortAllocatorInner) (n : Nat) (inner' : PortAllocatorInner),
        inner.try_allocate pick = some (n, inner') → n ∉ inner.used)
    ∧ ((initState limit).run pick ops).live.Nodup
    ∧ (∀ n, n ∈ ((initState limit).run pick ops).inner.used ↔
        n ∈ ((initState limit).run pick ops).live)
    ∧ (∀ (p2 n : Nat) (inner' : PortAllocatorInner),
        p2 ∈ ((initState limit).run pick ops).live →
        ((initState limit).run pick ops).inner.try_allocate pick = some (n, inner') →
        n ≠ p2) := by
  obtain ⟨hnd, hmem⟩ := sysInv_run pick hpick (initState limit) ops (sysInv_init limit)
  refine ⟨?_, hnd, hmem, ?_⟩
  · intro inner n inner' h
    exact (try_allocate_fresh pick hpick inner n inner' h).1
  · intro p2 n inner' hp2 h
    have hfresh := (try_allocate_fresh pick hpick _ n inner' h).1
    intro he
    subst he
    exact hfresh ((hmem n).mpr hp2)

/-- Witness for C5: the scenario of the spec, allocate two ports, drop the
first, allocate again; the live numbers are pairwise distinct. -/
theorem c5_witness :
    (∀ s : Finset Nat, pickFresh s ∉ s)
    ∧ ((initState 2).run pickFresh
        [AllocOp.tryAlloc, AllocOp.alloc 0, AllocOp.dropPort 1, AllocOp.alloc 1]).live.Nodup :=
  ⟨pickFresh_not_mem,
   (c5_allocations_distinct pickFresh pickFresh_not_mem 2
     [AllocOp.tryAlloc, AllocOp.alloc 0, AllocOp.dropPort 1, AllocOp.alloc 1]).2.1⟩

/-- Claim C6: an inbound backchannel message whose first byte is the error
tag makes send_impl enqueue Forward with try_send semantics and keeps the
driver running; the queue capacity is 16, an enqueue below capacity appends
and an enqueue at capacity leaves the queue unchanged. -/
theorem c6_backchannel_forward {V K : Type} (errTag : Nat) (rest : List Nat)
    (s : SendState K) (h : s.running = true) :
    (send_impl_step (V := V) errTag (SendEvent.backchannel (some (errTag :: rest))) s).errQueue
        = trySendErr s.errQueue RemoteSendError.forward
    ∧ (send_impl_step (V := V) errTag (SendEvent.backchannel (some (errTag :: rest))) s).running
        = true
    ∧ ERROR_QUEUE = 16
    ∧ (s.errQueue.length < 16 →
        trySendErr s.errQueue RemoteSendError.forward
          = s.errQueue ++ [RemoteSendError.forward])
    ∧ (16 ≤ s.errQueue.length →
        trySendErr s.errQueue RemoteSendError.forward = s.errQueue) := by
  refine ⟨?_, ?_, rfl, ?_, ?_⟩
  · simp [send_impl_step, h]
  · simp [send_impl_step, h]
  · intro hlen
    unfold trySendErr
    rw [if_pos]
    simpa [ERROR_QUEUE] using hlen
  · intro hlen
    unfold trySendErr
    rw [if_neg]
    simp only [ERROR_QUEUE]
    omega

/-- Witness for C6: a concrete backchannel error byte appends Forward to an
empty error queue. -/
theorem c6_witness :
    (send_impl_step (V := Unit) (K := Nat) 1
        (SendEvent.backchannel (some [1])) ⟨[], true⟩).errQueue
      = trySendErr [] RemoteSendError.forward :=
  (c6_backchannel_forward (V := Unit) (K := Nat) 1 [] ⟨[], true⟩ rfl).1

/-- Claim C7: when decoding an inbound value fails with error e, recv_impl
publishes Err(RemoteReceive e) to the local watch; the driver then stops
exactly when e is final and continues receiving otherwise. -/
theorem c7_recv_error_published {T : Type} (errTag : Nat) (e : BaseRecvError)
    (s : RecvState T) (h : s.running = true) :
    (recv_impl_step errTag true (RecvEvent.data (RecvRes.err e)) s).published
        = s.published ++ [Except.error (RecvError.remoteReceive e)]
    ∧ (recv_impl_step errTag true (RecvEvent.data (RecvRes.err e)) s).running
        = !e.is_final := by
  unfold recv_impl_step
  simp [h]

/-- Witness for C7: a concrete final decode error is published to the local
watch. -/
theorem c7_witness :
    (recv_impl_step (T := Unit) 1 true (RecvEvent.data (RecvRes.err ⟨0, true⟩))
        ⟨false, [], [], true⟩).published
      = [] ++ [Except.error (RecvError.remoteReceive ⟨0, true⟩)] :=
  (c7_recv_error_published (T := Unit) 1 ⟨0, true⟩ ⟨false, [], [], true⟩ rfl).1

/-- Claim C8: an entry dequeued from the local error queue, or a set
initial pending error, makes recv_impl send the single error tag byte
upstream on the raw sender; the pending error is cleared afterwards, and
the emitted message is one byte long. -/
theorem c8_error_queue_backchannel {T : Type} (errTag : Nat) (txOpen : Bool)
    (s : RecvState T) (h : s.running = true) :
    (recv_impl_step errTag txOpen (RecvEvent.errDequeued (T := T)) s).sentUp
        = s.sentUp ++ [[errTag]]
    ∧ (s.currentErr = true →
        (recv_impl_step errTag txOpen (RecvEvent.pendingErr (T := T)) s).sentUp
            = s.sentUp ++ [[errTag]]
        ∧ (recv_impl_step errTag txOpen (RecvEvent.pendingErr (T := T)) s).currentErr
            = false)
    ∧ List.length [errTag] = 1 := by
  refine ⟨?_, ?_, rfl⟩
  · unfold recv_impl_step
    simp [h]
  · intro hc
    unfold recv_impl_step
    simp [h, hc]

/-- Witness for C8: a concrete dequeued error emits the tag byte upstream. -/
theorem c8_witness :
    (recv_impl_step (T := Unit) 1 true (RecvEvent.errDequeued (T := Unit))
        ⟨true, [], [], true⟩).sentUp = [] ++ [[1]] :=
  (c8_error_queue_backchannel (T := Unit) 1 true ⟨true, [], [], true⟩ rfl).1

/-- Claim C9: equality, ordering and hashing of PortNumber delegate to the
underlying number, PartialOrd is Some of the total comparison, Borrow and
Deref return the number itself, and two handles with the same number but
different allocator identities compare equal, so a PortNumber is
interchangeable with its bare number as a map key. -/
theorem c9_portnumber_delegates (a b : PortNumber) (h : Nat → Nat) :
    (a.eq b = true ↔ a.number = b.number)
    ∧ a.cmp b = compare a.number b.number
    ∧ a.partial_cmp b = some (a.cmp b)
    ∧ PortNumber.hash h a = h a.number
    ∧ a.borrow = a.number
    ∧ a.deref = a.number
    ∧ (PortNumber.mk a.number 0).eq (PortNumber.mk a.number 1) = true := by
  refine ⟨?_, rfl, rfl, rfl, rfl, rfl, ?_⟩
  · simp [PortNumber.eq, PortNumber.deref]
  · simp [PortNumber.eq, PortNumber.deref]

/-- Claim C10: dereferencing a watch Ref unwraps the stored Result: it
yields the value when the channel holds Ok and panics (modelled by none)
whenever the channel currently holds Err. -/
theorem c10_ref_deref_unwraps {T : Type} :
    (∀ v : T, (WatchRef.mk (Except.ok v)).deref = some v)
    ∧ (∀ e : RecvError, (WatchRef.mk (T := T) (Except.error e)).deref = none) :=
  ⟨fun _ => rfl, fun _ => rfl⟩
